import Mathlib

/-!
A shallow embedding of the aspen-bot credential store and per-user
notification scheduler, translated from database.py, bot/scheduler.py and
bot/handlers.py, together with theorems settling the frozen claims about
them. Credentials are modelled as byte sequences (List Nat). Instants are
UTC seconds (Int) counted from an epoch whose day zero is a Thursday, as
for the Unix epoch. Wall-clock arithmetic uses the fixed UTC offset of
the zone in force, matching the fixed-offset datetime arithmetic the
source performs on pytz-localized values within a single call.
-/

/-- Modelled from the spec: the external symmetric encryption scheme
(cryptography.fernet, not part of this repository) behind the encrypt and
decrypt helpers of database.py. A single key encrypts a byte sequence;
decryption authenticates and fails on a wrong key or malformed
ciphertext. The model tags the ciphertext with the key and shifts each
byte, which yields exactly the two interface facts the store relies on:
decrypt after encrypt with the same key is the identity, and decrypt of
corrupted data or with a wrong key fails. -/
def fernetEncrypt (key : Nat) (data : List Nat) : List Nat :=
  key :: data.map (fun b => b + key)

/-- Modelled from the spec: Fernet decryption; none models the exception
raised on an authentication failure. -/
def fernetDecrypt (key : Nat) (ct : List Nat) : Option (List Nat) :=
  match ct with
  | [] => none
  | k :: rest => if k = key then some (rest.map (fun b => b - key)) else none

/-- Modelled from the spec: resolution of IANA timezone names to a UTC
offset in minutes (the external pytz library, not part of this
repository). The table covers the zones the conversation UI offers plus
the default; an unknown name fails closed, modelling the exception pytz
raises. -/
def pytzOffset (tz : String) : Option Int :=
  if tz = "America/New_York" then some (-300)
  else if tz = "America/Chicago" then some (-360)
  else if tz = "America/Denver" then some (-420)
  else if tz = "America/Los_Angeles" then some (-480)
  else if tz = "America/Anchorage" then some (-540)
  else if tz = "Pacific/Honolulu" then some (-600)
  else if tz = "America/Toronto" then some (-300)
  else if tz = "America/Winnipeg" then some (-360)
  else if tz = "America/Edmonton" then some (-420)
  else if tz = "America/Vancouver" then some (-480)
  else none

/-- A row of the users table (database.py, init_database). The credential
columns hold ciphertext at rest. -/
structure UserRow where
  telegramId : Int
  aspenUsername : List Nat
  aspenPassword : List Nat
  notificationMethod : String
  isActive : Bool
  createdAt : Int
  lastUpdated : Int
deriving DecidableEq

/-- A row of the user_settings table (database.py, init_database). -/
structure SettingsRow where
  telegramId : Int
  timezone : String
  notificationFrequency : String
  notificationTime : String
deriving DecidableEq

/-- The persisted store: the users and user_settings tables plus the
single persisted encryption key (database.py, Database). -/
structure Database where
  users : List UserRow
  settings : List SettingsRow
  key : Nat
deriving DecidableEq

/-- The decrypted account view that get_user and get_all_active_users
hand to callers (database.py). -/
structure UserView where
  telegramId : Int
  aspenUsername : List Nat
  aspenPassword : List Nat
  notificationMethod : String
  isActive : Bool
  createdAt : Int
  lastUpdated : Int
deriving DecidableEq

/-- database.py get_user, dictionary-building part: decrypt both
credential columns of a selected row; a decryption failure raises, which
the surrounding except clause turns into None. -/
def decryptUserView (key : Nat) (u : UserRow) : Option UserView :=
  match fernetDecrypt key u.aspenUsername with
  | none => none
  | some un =>
      match fernetDecrypt key u.aspenPassword with
      | none => none
      | some pw =>
          some { telegramId := u.telegramId, aspenUsername := un,
                 aspenPassword := pw,
                 notificationMethod := u.notificationMethod,
                 isActive := u.isActive, createdAt := u.createdAt,
                 lastUpdated := u.lastUpdated }

/-- database.py get_user: select the row by telegram_id and decrypt it;
any exception, a decryption failure included, is caught and None is
returned. -/
def get_user (db : Database) (tid : Int) : Option UserView :=
  match db.users.find? (fun u => u.telegramId == tid) with
  | none => none
  | some u => decryptUserView db.key u

/-- database.py get_all_active_users, loop body: decrypt the selected
rows in order; the first failure raises out of the whole loop. -/
def decryptAll (key : Nat) : List UserRow → Option (List UserView)
  | [] => some []
  | u :: rest =>
      match decryptUserView key u with
      | none => none
      | some v =>
          match decryptAll key rest with
          | none => none
          | some vs => some (v :: vs)

/-- database.py get_all_active_users: select every row with is_active = 1
and decrypt each; any exception is caught and the empty list returned. -/
def get_all_active_users (db : Database) : List UserView :=
  match decryptAll db.key (db.users.filter (fun u => u.isActive)) with
  | none => []
  | some l => l

/-- database.py add_user: encrypt both credentials, then update the
matching row if one exists, or insert a new row (is_active defaults to 1
and created_at is set on first insert; last_updated is set always). -/
def add_user (db : Database) (tid : Int) (un pw : List Nat)
    (method : String) (now : Int) : Database × Bool :=
  match db.users.find? (fun u => u.telegramId == tid) with
  | some _ =>
      ({ db with users := db.users.map (fun u =>
            if u.telegramId == tid then
              { u with aspenUsername := fernetEncrypt db.key un,
                       aspenPassword := fernetEncrypt db.key pw,
                       notificationMethod := method, lastUpdated := now }
            else u) }, true)
  | none =>
      ({ db with users := db.users ++
            [{ telegramId := tid, aspenUsername := fernetEncrypt db.key un,
               aspenPassword := fernetEncrypt db.key pw,
               notificationMethod := method, isActive := true,
               createdAt := now, lastUpdated := now }] }, true)

/-- database.py get_user_settings: select the settings row by
telegram_id. -/
def get_user_settings (db : Database) (tid : Int) : Option SettingsRow :=
  db.settings.find? (fun s => s.telegramId == tid)

/-- The read-current-or-default step at the top of
update_user_notification_time (database.py). -/
def currentTimezoneOrDefault (db : Database) (tid : Int) : String :=
  match get_user_settings db tid with
  | some s => s.timezone
  | none => "America/Chicago"

/-- The read-current-or-default step at the top of update_user_timezone
(database.py). -/
def currentNotificationTimeOrDefault (db : Database) (tid : Int) : String :=
  match get_user_settings db tid with
  | some s => s.notificationTime
  | none => "15:00"

/-- INSERT OR REPLACE INTO user_settings, keyed by telegram_id: the
conflicting row, if any, is removed and the new row stored. -/
def insertOrReplaceSettings (db : Database) (row : SettingsRow) : Database :=
  { db with settings :=
      db.settings.filter (fun s => !(s.telegramId == row.telegramId)) ++ [row] }

/-- database.py update_user_notification_time: read the current timezone
(defaulting to America/Chicago when no settings row exists), then upsert
the settings row with frequency daily and the new time. -/
def update_user_notification_time (db : Database) (tid : Int) (t : String) :
    Database × Bool :=
  (insertOrReplaceSettings db
    { telegramId := tid, timezone := currentTimezoneOrDefault db tid,
      notificationFrequency := "daily", notificationTime := t }, true)

/-- database.py update_user_timezone: read the current notification time
(defaulting to 15:00 when no settings row exists), then upsert the
settings row with frequency daily and the new timezone. -/
def update_user_timezone (db : Database) (tid : Int) (tz : String) :
    Database × Bool :=
  (insertOrReplaceSettings db
    { telegramId := tid, timezone := tz,
      notificationFrequency := "daily",
      notificationTime := currentNotificationTimeOrDefault db tid }, true)

/-- Day index of a local wall-clock value measured in seconds; day zero
is a Thursday (Unix epoch convention). -/
def localDayIndex (t : Int) : Int := t / 86400

/-- Python datetime.weekday of a local instant: Monday is 0, Sunday 6. -/
def weekdayOf (localSec : Int) : Int := (localDayIndex localSec + 3) % 7

/-- The candidate local datetime for today built by now.replace in both
scheduling paths: today in the zone in force, at hour:minute, with the
drawn jitter second. -/
def candidateLocal (hour minute jitter : Nat) (offMin nowUtc : Int) : Int :=
  localDayIndex (nowUtc + offMin * 60) * 86400 +
    ((hour * 3600 + minute * 60 + jitter : Nat) : Int)

/-- bot/scheduler.py setup_scheduler, per-user scheduling block: build
the candidate for today; if it is at or before local now, advance it by
exactly one day; convert to UTC by removing the fixed zone offset. -/
def setupNextFireUtc (hour minute jitter : Nat) (offMin nowUtc : Int) : Int :=
  (if candidateLocal hour minute jitter offMin nowUtc ≤ nowUtc + offMin * 60
   then candidateLocal hour minute jitter offMin nowUtc + 86400
   else candidateLocal hour minute jitter offMin nowUtc) - offMin * 60

/-- bot/handlers.py reschedule_user_job, recompute block: the same steps
as the setup path. -/
def rescheduleNextFireUtc (hour minute jitter : Nat) (offMin nowUtc : Int) : Int :=
  (if candidateLocal hour minute jitter offMin nowUtc ≤ nowUtc + offMin * 60
   then candidateLocal hour minute jitter offMin nowUtc + 86400
   else candidateLocal hour minute jitter offMin nowUtc) - offMin * 60

/-- Code of a decimal digit character, as a number. -/
def digitVal (c : Char) : Nat := c.toNat - 48

/-- The character class [0-9] of the source regex. -/
def isDigitCh (c : Char) : Bool :=
  decide (48 ≤ c.toNat) && decide (c.toNat ≤ 57)

/-- Python str.split on a colon: every colon separates. -/
def splitAllColon : List Char → List (List Char)
  | [] => [[]]
  | c :: rest =>
      if c == ':' then [] :: splitAllColon rest
      else
        match splitAllColon rest with
        | [] => [[c]]
        | l :: ls => (c :: l) :: ls

/-- The hour alternative of the source regex: one digit, or a two-digit
form starting with 0 or 1, or 20 to 23. -/
def hourPartOK : List Char → Bool
  | [c] => isDigitCh c
  | [c1, c2] =>
      (decide (48 ≤ c1.toNat) && decide (c1.toNat ≤ 49) && isDigitCh c2) ||
      (decide (c1.toNat = 50) && decide (48 ≤ c2.toNat) && decide (c2.toNat ≤ 51))
  | _ => false

/-- The minute part of the source regex: [0-5][0-9]. -/
def minutePartOK : List Char → Bool
  | [c1, c2] => decide (48 ≤ c1.toNat) && decide (c1.toNat ≤ 53) && isDigitCh c2
  | _ => false

/-- The anchored time regex of bot/handlers.py (set_notification_time and
setup_notification_time_input). Since neither alternative of the pattern
can contain a colon, an anchored match is exactly: the string splits on
colons into two parts, the first matching the hour alternative and the
second the minute part. -/
def timeRegexChars (l : List Char) : Bool :=
  match splitAllColon l with
  | [hp, mp] => hourPartOK hp && minutePartOK mp
  | _ => false

/-- The validation the handlers run on the stripped user input. -/
def matchesTimeRegex (s : String) : Bool := timeRegexChars s.data

/-- Python int on a digit string, accumulator form. -/
def digitsToNatAux : Nat → List Char → Option Nat
  | acc, [] => some acc
  | acc, c :: rest =>
      if isDigitCh c then digitsToNatAux (acc * 10 + digitVal c) rest else none

/-- Python int applied to one split part: fails when empty or when any
character is not a digit. -/
def digitsToNat : List Char → Option Nat
  | [] => none
  | c :: rest => digitsToNatAux 0 (c :: rest)

/-- The parse step shared by both scheduling paths: split the stored time
on colons and convert both parts with int; unpacking fails unless there
are exactly two parts, int fails on a non-digit part, and now.replace
raises when the hour or minute is out of range for a time of day. -/
def codeParseChars (l : List Char) : Option (Nat × Nat) :=
  match splitAllColon l with
  | [hp, mp] =>
      match digitsToNat hp, digitsToNat mp with
      | some h, some m => if h ≤ 23 ∧ m ≤ 59 then some (h, m) else none
      | _, _ => none
  | _ => none

/-- String wrapper of the parse step. -/
def codeParseTime (s : String) : Option (Nat × Nat) := codeParseChars s.data

/-- Formalisation of the SPEC wording for claim C7, written from the spec
text rather than the source, for comparison: a strict two-digit 24-hour
HH:MM between 00:00 and 23:59. -/
def specHHMMChars : List Char → Bool
  | [h1, h2, c, m1, m2] =>
      (c == ':') && isDigitCh h1 && isDigitCh h2 && isDigitCh m1 &&
      isDigitCh m2 && decide (10 * digitVal h1 + digitVal h2 ≤ 23) &&
      decide (digitVal m1 ≤ 5)
  | _ => false

/-- String wrapper of the spec wording for claim C7. -/
def specHHMM (s : String) : Bool := specHHMMChars s.data

/-- Drop leading whitespace characters. -/
def dropLeadingWs : List Char → List Char
  | [] => []
  | c :: rest => if c.isWhitespace then dropLeadingWs rest else c :: rest

/-- Python str.strip: remove whitespace from both ends. -/
def pyStrip (s : String) : String :=
  String.mk ((dropLeadingWs ((dropLeadingWs s.data).reverse)).reverse)

/-- A registered job of the host job queue: the deterministic name, the
daily repeat rule cached as a UTC time of day (the time argument of
run_daily), the next absolute fire instant, and the user id snapshot
carried in the job data. -/
structure Job where
  name : String
  repeatUtcSecOfDay : Int
  nextRunUtc : Int
  dataUserId : Int
deriving DecidableEq

/-- The deterministic per-user job name used by both scheduling paths. -/
def jobNameOf (tid : Int) : String := "grade_check_user_" ++ toString tid

/-- bot/handlers.py reschedule_user_job: abort when the user is missing;
resolve the stored timezone and parse the new time, where any exception
leaves the queue untouched because the raising steps all come before the
queue is touched; otherwise remove every job carrying the user job name
and register one new daily job at the recomputed fire instant. -/
def reschedule_user_job (db : Database) (q : List Job) (tid : Int)
    (t : String) (jitter : Nat) (nowUtc : Int) : List Job :=
  match get_user db tid with
  | none => q
  | some _ =>
      match pytzOffset (currentTimezoneOrDefault db tid), codeParseTime t with
      | some off, some hm =>
          (q.filter (fun j => !(j.name == jobNameOf tid))) ++
            [{ name := jobNameOf tid,
               repeatUtcSecOfDay :=
                 rescheduleNextFireUtc hm.1 hm.2 jitter off nowUtc % 86400,
               nextRunUtc := rescheduleNextFireUtc hm.1 hm.2 jitter off nowUtc,
               dataUserId := tid }]
      | _, _ => q

/-- The ambient context of one firing: the UTC instant, the offset of the
process-local clock that datetime.now reads, the scheduled fire instant
of the job, and the external GradeSource keyed by the decrypted
credentials. -/
structure FiringEnv where
  nowUtc : Int
  serverOffsetMin : Int
  scheduledRunUtc : Int
  gradeSource : List Nat → List Nat → List String

/-- A message handed to the Messenger collaborator. -/
inductive SentMessage where
  | gradeMsg (chatId : Int) (text : String)
  | delayNotice (chatId : Int) (minutes : Int)
deriving DecidableEq

/-- bot/scheduler.py fetch_and_notify_user: re-read the account fresh by
the id cached in the job data and abort when absent; return without
sending anything when the process-local weekday is Saturday or Sunday;
otherwise fetch the formatted grade messages with the fresh credentials,
send each in order, and send one delay notice when the firing ran late. -/
def fetch_and_notify_user (db : Database) (env : FiringEnv) (j : Job) :
    List SentMessage :=
  match get_user db j.dataUserId with
  | none => []
  | some fresh =>
      if 5 ≤ weekdayOf (env.nowUtc + env.serverOffsetMin * 60) then []
      else
        (env.gradeSource fresh.aspenUsername fresh.aspenPassword).map
            (fun t => SentMessage.gradeMsg j.dataUserId t) ++
          (if env.scheduledRunUtc < env.nowUtc ∧
              0 < (env.nowUtc - env.scheduledRunUtc) / 60
           then [SentMessage.delayNotice j.dataUserId
                   ((env.nowUtc - env.scheduledRunUtc) / 60)]
           else [])

/-- The host framework half of one firing (the python-telegram-bot job
queue, not part of this repository): run_daily repeats a job at its
cached UTC time of day, so after a firing the next run of the fired job
advances by exactly one day; the callback itself registers nothing. -/
def jobQueueAfterFiring (q : List Job) (firedName : String) : List Job :=
  q.map (fun j => if j.name == firedName
                  then { j with nextRunUtc := j.nextRunUtc + 86400 } else j)

/-- One complete firing: the messages the dispatcher sends, paired with
the job queue as the framework leaves it afterwards. -/
def fireStep (db : Database) (env : FiringEnv) (q : List Job) (j : Job) :
    List SentMessage × List Job :=
  (fetch_and_notify_user db env j, jobQueueAfterFiring q j.name)

/-- The firing weekday computed in the timezone stored in the firing user
settings row (defaulting like the source does); this is the clock claim
C3 says decides the weekend skip. -/
def userSettingsWeekday (db : Database) (env : FiringEnv) (tid : Int) : Int :=
  match pytzOffset (currentTimezoneOrDefault db tid) with
  | some off => weekdayOf (env.nowUtc + off * 60)
  | none => weekdayOf env.nowUtc

/-- bot/handlers.py set_notification_time: strip the input, validate it
against the regex, and only on a match persist the new time and then
reschedule the job against the updated store; the Bool of the result
records acceptance. -/
def set_notification_time (db : Database) (q : List Job) (uid : Int)
    (text : String) (jitter : Nat) (nowUtc : Int) :
    Database × List Job × Bool :=
  if matchesTimeRegex (pyStrip text) then
    ((update_user_notification_time db uid (pyStrip text)).1,
     reschedule_user_job (update_user_notification_time db uid (pyStrip text)).1
       q uid (pyStrip text) jitter nowUtc, true)
  else (db, q, false)

/-- A store with one account whose settings say 12:00 Chicago while the
registered job repeats at 15:00 UTC (claim C1). -/
def c1db : Database :=
  { users := [{ telegramId := 7, aspenUsername := fernetEncrypt 5 [10],
                aspenPassword := fernetEncrypt 5 [20],
                notificationMethod := "telegram", isActive := true,
                createdAt := 0, lastUpdated := 0 }],
    settings := [{ telegramId := 7, timezone := "America/Chicago",
                   notificationFrequency := "daily",
                   notificationTime := "12:00" }],
    key := 5 }

/-- A firing context on a Thursday at the scheduled instant (claim C1). -/
def c1env : FiringEnv :=
  { nowUtc := 54000, serverOffsetMin := 0, scheduledRunUtc := 54000,
    gradeSource := fun _ _ => ["grades"] }

/-- The registered job of the claim C1 scenario. -/
def c1job : Job :=
  { name := "grade_check_user_7", repeatUtcSecOfDay := 54000,
    nextRunUtc := 54000, dataUserId := 7 }

/-- A stored row whose username ciphertext is corrupted (claim C2). -/
def c2row : UserRow :=
  { telegramId := 7, aspenUsername := [],
    aspenPassword := fernetEncrypt 4 [9],
    notificationMethod := "telegram", isActive := true,
    createdAt := 0, lastUpdated := 0 }

/-- A store holding only the corrupted row (claim C2). -/
def c2db : Database := { users := [c2row], settings := [], key := 4 }

/-- A store holding no account at all (claim C2). -/
def c2emptyDb : Database := { users := [], settings := [], key := 4 }

/-- A second corrupted-row store, for the claim C2 witness. -/
def c2wrow : UserRow :=
  { telegramId := 9, aspenUsername := [], aspenPassword := [],
    notificationMethod := "telegram", isActive := true,
    createdAt := 0, lastUpdated := 0 }

/-- The claim C2 witness store. -/
def c2wdb : Database := { users := [c2wrow], settings := [], key := 1 }

/-- A store whose account keeps Honolulu settings (claim C3). -/
def c3db : Database :=
  { users := [{ telegramId := 8, aspenUsername := fernetEncrypt 2 [1],
                aspenPassword := fernetEncrypt 2 [2],
                notificationMethod := "telegram", isActive := true,
                createdAt := 0, lastUpdated := 0 }],
    settings := [{ telegramId := 8, timezone := "Pacific/Honolulu",
                   notificationFrequency := "daily",
                   notificationTime := "15:00" }],
    key := 2 }

/-- A firing on a Monday 09:00 UTC process clock, which is still Sunday
23:00 in Honolulu (claim C3). -/
def c3env : FiringEnv :=
  { nowUtc := 378000, serverOffsetMin := 0, scheduledRunUtc := 378000,
    gradeSource := fun _ _ => ["g"] }

/-- The registered job of the claim C3 scenario. -/
def c3job : Job :=
  { name := "grade_check_user_8", repeatUtcSecOfDay := 378000,
    nextRunUtc := 378000, dataUserId := 8 }

/-- A store for the claim C3 witness. -/
def c3wdb : Database :=
  { users := [{ telegramId := 4, aspenUsername := fernetEncrypt 3 [1],
                aspenPassword := fernetEncrypt 3 [2],
                notificationMethod := "telegram", isActive := true,
                createdAt := 0, lastUpdated := 0 }],
    settings := [], key := 3 }

/-- A firing whose process-local clock reads Saturday (claim C3 witness). -/
def c3wenv : FiringEnv :=
  { nowUtc := 172800, serverOffsetMin := 0, scheduledRunUtc := 172800,
    gradeSource := fun _ _ => ["g"] }

/-- The registered job of the claim C3 witness. -/
def c3wjob : Job :=
  { name := "grade_check_user_4", repeatUtcSecOfDay := 0,
    nextRunUtc := 172800, dataUserId := 4 }

/-- A store with one schedulable account (claim C5 witness). -/
def c5db : Database :=
  { users := [{ telegramId := 7, aspenUsername := fernetEncrypt 1 [1],
                aspenPassword := fernetEncrypt 1 [2],
                notificationMethod := "telegram", isActive := true,
                createdAt := 0, lastUpdated := 0 }],
    settings := [{ telegramId := 7, timezone := "America/Chicago",
                   notificationFrequency := "daily",
                   notificationTime := "08:00" }],
    key := 1 }

/-- The decrypted view of the claim C5 witness account. -/
def c5view : UserView :=
  { telegramId := 7, aspenUsername := [1], aspenPassword := [2],
    notificationMethod := "telegram", isActive := true,
    createdAt := 0, lastUpdated := 0 }

/-- An empty store for claim C7. -/
def c7db : Database := { users := [], settings := [], key := 0 }

/-- A store whose only account is deactivated (claim C9). -/
def c9db : Database :=
  { users := [{ telegramId := 7, aspenUsername := fernetEncrypt 3 [10],
                aspenPassword := fernetEncrypt 3 [20],
                notificationMethod := "telegram", isActive := false,
                createdAt := 0, lastUpdated := 0 }],
    settings := [], key := 3 }

/-- The decrypted view of the deactivated claim C9 account. -/
def c9view : UserView :=
  { telegramId := 7, aspenUsername := [10], aspenPassword := [20],
    notificationMethod := "telegram", isActive := false,
    createdAt := 0, lastUpdated := 0 }

/-- A weekday firing context (claim C9). -/
def c9env : FiringEnv :=
  { nowUtc := 378000, serverOffsetMin := 0, scheduledRunUtc := 378000,
    gradeSource := fun _ _ => ["g"] }

/-- The registered job of the deactivated claim C9 account. -/
def c9job : Job :=
  { name := "grade_check_user_7", repeatUtcSecOfDay := 0,
    nextRunUtc := 378000, dataUserId := 7 }

/-- An empty store for claim C10. -/
def c10db : Database := { users := [], settings := [], key := 0 }

theorem fernet_round_trip (key : Nat) (d : List Nat) :
    fernetDecrypt key (fernetEncrypt key d) = some d := by
  show (if key = key
        then some ((d.map (fun b => b + key)).map (fun b => b - key))
        else none) = some d
  rw [if_pos rfl, List.map_map]
  have h : ((fun b => b - key) ∘ fun b => b + key) = id := by
    funext b
    simp
  rw [h, List.map_id]

theorem find_append_single {α : Type} (p : α → Bool) (l : List α) (x : α)
    (h : l.find? p = none) (hx : p x = true) :
    (l ++ [x]).find? p = some x := by
  induction l with
  | nil =>
      rw [List.nil_append]
      exact List.find?_cons_of_pos _ hx
  | cons a t ih =>
      rw [List.cons_append]
      cases hpa : p a with
      | true =>
          rw [List.find?_cons_of_pos _ hpa] at h
          exact Option.noConfusion h
      | false =>
          have hpa2 : ¬ (p a = true) := by simp [hpa]
          rw [List.find?_cons_of_neg _ hpa2] at h
          rw [List.find?_cons_of_neg _ hpa2]
          exact ih h

theorem find_map_ite {α : Type} (q : α → Bool) (g : α → α)
    (hg : ∀ a, q (g a) = q a) (l : List α) (u : α)
    (h : l.find? q = some u) :
    (l.map (fun a => if q a then g a else a)).find? q = some (g u) := by
  induction l with
  | nil => exact absurd h (by simp)
  | cons a t ih =>
      cases hqa : q a with
      | true =>
          rw [List.find?_cons_of_pos _ hqa] at h
          injection h with h
          subst h
          simp only [List.map_cons]
          rw [if_pos hqa]
          exact List.find?_cons_of_pos _ (by rw [hg]; exact hqa)
      | false =>
          have hqa2 : ¬ (q a = true) := by simp [hqa]
          rw [List.find?_cons_of_neg _ hqa2] at h
          simp only [List.map_cons]
          rw [if_neg hqa2]
          rw [List.find?_cons_of_neg _ hqa2]
          exact ih h

theorem find_filter_append {α : Type} (q : α → Bool) (l : List α) (x : α)
    (hx : q x = true) :
    ((l.filter (fun a => !(q a))) ++ [x]).find? q = some x := by
  induction l with
  | nil =>
      simp only [List.filter_nil, List.nil_append]
      exact List.find?_cons_of_pos _ hx
  | cons a t ih =>
      cases hqa : q a with
      | true =>
          rw [List.filter_cons_of_neg (by simp [hqa])]
          exact ih
      | false =>
          rw [List.filter_cons_of_pos (by simp [hqa]), List.cons_append,
              List.find?_cons_of_neg _ (by simp [hqa])]
          exact ih

theorem filter_count_one {α : Type} (q : α → Bool) (l : List α) (x : α)
    (hx : q x = true) :
    (((l.filter (fun a => !(q a))) ++ [x]).filter q).length = 1 := by
  rw [List.filter_append]
  have h1 : (l.filter (fun a => !(q a))).filter q = [] := by
    induction l with
    | nil => rfl
    | cons a t ih =>
        cases hqa : q a with
        | true =>
            rw [List.filter_cons_of_neg (by simp [hqa])]
            exact ih
        | false =>
            rw [List.filter_cons_of_pos (by simp [hqa]),
                List.filter_cons_of_neg (by simp [hqa])]
            exact ih
  rw [h1, List.nil_append, List.filter_cons_of_pos hx]
  rfl

theorem decryptAll_none_of_mem {key : Nat} {l : List UserRow} {u : UserRow}
    (hu : u ∈ l) (hz : decryptUserView key u = none) :
    decryptAll key l = none := by
  induction l with
  | nil => cases hu
  | cons a t ih =>
      rcases List.mem_cons.mp hu with h | h
      · subst h
        simp [decryptAll, hz]
      · cases hda : decryptUserView key a with
        | none => simp [decryptAll, hda]
        | some v => simp [decryptAll, hda, ih h]

/-- Claim C6: for any credentials, upserting an account and then reading
it back returns exactly the original plaintext username and password;
decryption after encryption with the single store key is the identity on
the stored credentials, and ciphertext is never handed to the caller. -/
theorem C6_round_trip (db : Database) (tid : Int) (un pw : List Nat)
    (method : String) (now : Int) :
    (add_user db tid un pw method now).2 = true ∧
    ((get_user (add_user db tid un pw method now).1 tid).map
        (fun v => (v.aspenUsername, v.aspenPassword))) = some (un, pw) := by
  unfold add_user
  cases hfind : db.users.find? (fun u => u.telegramId == tid) with
  | none =>
      refine ⟨rfl, ?_⟩
      unfold get_user
      rw [find_append_single _ _ _ hfind (by simp)]
      simp [decryptUserView, fernet_round_trip]
  | some u =>
      refine ⟨rfl, ?_⟩
      unfold get_user
      rw [find_map_ite (fun w => w.telegramId == tid)
            (fun w => { w with aspenUsername := fernetEncrypt db.key un,
                               aspenPassword := fernetEncrypt db.key pw,
                               notificationMethod := method,
                               lastUpdated := now })
            (fun a => rfl) db.users u hfind]
      simp [decryptUserView, fernet_round_trip]

/-- Claim C8: setting the notification time stores the previously stored
timezone (or the America/Chicago default when no settings row existed),
and setting the timezone stores the previously stored notification time
(or the 15:00 default): each upsert reads current settings first and
changes only its own field. -/
theorem C8_other_field_preserved (db : Database) (tid : Int) (t tz : String) :
    ((get_user_settings (update_user_notification_time db tid t).1 tid).map
        (fun s => s.timezone)) = some (currentTimezoneOrDefault db tid) ∧
    ((get_user_settings (update_user_timezone db tid tz).1 tid).map
        (fun s => s.notificationTime))
      = some (currentNotificationTimeOrDefault db tid) := by
  constructor
  · unfold update_user_notification_time insertOrReplaceSettings get_user_settings
    rw [find_filter_append _ _ _ (by simp)]
    rfl
  · unfold update_user_timezone insertOrReplaceSettings get_user_settings
    rw [find_filter_append _ _ _ (by simp)]
    rfl

/-- Claim C10: both settings upserts succeed and create a settings row
even when no account row with that id exists, so these operations do not
enforce that every settings row references an existing account. -/
theorem C10_settings_without_account (db : Database) (tid : Int)
    (t tz : String)
    (h : db.users.find? (fun u => u.telegramId == tid) = none) :
    ((update_user_notification_time db tid t).2 = true ∧
      (get_user_settings (update_user_notification_time db tid t).1 tid).isSome
        = true) ∧
    ((update_user_timezone db tid tz).2 = true ∧
      (get_user_settings (update_user_timezone db tid tz).1 tid).isSome
        = true) := by
  refine ⟨⟨rfl, ?_⟩, ⟨rfl, ?_⟩⟩
  · unfold update_user_notification_time insertOrReplaceSettings get_user_settings
    rw [find_filter_append _ _ _ (by simp)]
    rfl
  · unfold update_user_timezone insertOrReplaceSettings get_user_settings
    rw [find_filter_append _ _ _ (by simp)]
    rfl

/-- Claim C10 witness: an empty store, user id 3. -/
theorem C10_settings_without_account_witness :
    c10db.users.find? (fun u => u.telegramId == 3) = none ∧
    ((update_user_notification_time c10db 3 ("09:00")).2 = true ∧
      (get_user_settings (update_user_notification_time c10db 3 ("09:00")).1
          3).isSome = true) :=
  ⟨by decide,
   (C10_settings_without_account c10db 3 ("09:00") ("America/Denver")
      (by decide)).1⟩

/-- Claim C2 counterexample: a store holding one account whose ciphertext
fails to decrypt. The row is present and its decryption fails, yet
getAccount returns the same absent answer as for a store with no account
at all, and listActiveAccounts returns the empty list: the failure is not
surfaced as a distinguishable error. -/
theorem C2_counterexample :
    (c2db.users.find? (fun u => u.telegramId == 7)).isSome = true ∧
    fernetDecrypt c2db.key c2row.aspenUsername = none ∧
    get_user c2db 7 = get_user c2emptyDb 7 ∧
    get_all_active_users c2db = [] := by
  decide

/-- Claim C2 amended: when a stored row exists but its username
ciphertext fails to decrypt, get_user catches the failure and returns
none, and when such a row is active, get_all_active_users catches the
failure and returns the empty list; both outcomes are indistinguishable
from a missing user and an empty store, the failure being only logged. -/
theorem C2_decrypt_failure_swallowed (db : Database) (tid : Int)
    (row : UserRow)
    (hf : db.users.find? (fun u => u.telegramId == tid) = some row)
    (hd : fernetDecrypt db.key row.aspenUsername = none) :
    get_user db tid = none ∧
    (row.isActive = true → get_all_active_users db = []) := by
  constructor
  · unfold get_user
    rw [hf]
    simp only [decryptUserView, hd]
  · intro ha
    unfold get_all_active_users
    have hmem : row ∈ db.users := List.mem_of_find?_eq_some hf
    have hmem2 : row ∈ db.users.filter (fun u => u.isActive) :=
      List.mem_filter.mpr ⟨hmem, ha⟩
    rw [decryptAll_none_of_mem hmem2 (by unfold decryptUserView; rw [hd])]

/-- Claim C2 witness: a concrete corrupted row on which the amended
statement is discharged. -/
theorem C2_decrypt_failure_swallowed_witness :
    (c2wdb.users.find? (fun u => u.telegramId == 9) = some c2wrow) ∧
    fernetDecrypt c2wdb.key c2wrow.aspenUsername = none ∧
    get_user c2wdb 9 = none ∧
    get_all_active_users c2wdb = [] :=
  ⟨by decide, by decide,
   (C2_decrypt_failure_swallowed c2wdb 9 c2wrow (by decide) (by decide)).1,
   (C2_decrypt_failure_swallowed c2wdb 9 c2wrow (by decide) (by decide)).2
     (by decide)⟩

/-- Claim C5: rescheduling is idempotent on the job set. Provided the
user exists, the stored timezone resolves and the new time parses (the
conditions under which the source reaches the queue operations), one
reschedule, and likewise two in succession, leave exactly one job under
the deterministic per-user name, because each call first cancels every
job with that name and then registers exactly one. -/
theorem C5_reschedule_single_job (db : Database) (q : List Job) (tid : Int)
    (t : String) (jit1 jit2 : Nat) (now1 now2 : Int)
    (v : UserView) (off : Int) (hm : Nat × Nat)
    (hu : get_user db tid = some v)
    (htz : pytzOffset (currentTimezoneOrDefault db tid) = some off)
    (ht : codeParseTime t = some hm) :
    ((reschedule_user_job db (reschedule_user_job db q tid t jit1 now1)
        tid t jit2 now2).filter
      (fun j => j.name == jobNameOf tid)).length = 1 ∧
    ((reschedule_user_job db q tid t jit1 now1).filter
      (fun j => j.name == jobNameOf tid)).length = 1 := by
  simp only [reschedule_user_job, hu, htz, ht]
  constructor
  · exact filter_count_one _ _ _ (by simp)
  · exact filter_count_one _ _ _ (by simp)

/-- Claim C5 witness: a concrete store and two successive reschedules of
user 7 to 15:00. -/
theorem C5_reschedule_single_job_witness :
    get_user c5db 7 = some c5view ∧
    pytzOffset (currentTimezoneOrDefault c5db 7) = some (-360) ∧
    codeParseTime ("15:00") = some (15, 0) ∧
    ((reschedule_user_job c5db (reschedule_user_job c5db [] 7 ("15:00") 0 0)
        7 ("15:00") 3 0).filter
      (fun j => j.name == jobNameOf 7)).length = 1 :=
  ⟨by decide, by decide, by decide,
   (C5_reschedule_single_job c5db [] 7 ("15:00") 0 3 0 0 c5view (-360) (15, 0)
      (by decide) (by decide) (by decide)).1⟩

/-- Claim C4: for every valid input (hour and minute of a well-formed
time string, the fixed offset of a known zone, any instant now) and any
jitter second the scheduler can draw, the computed next fire instant is
strictly after now, its seconds component lies between 0 and 30, the
result falls exactly one calendar day after the local date of now when
the candidate for today is at or before now and on the same local date
otherwise, and the initial-scheduling and reschedule paths compute the
same function. -/
theorem C4_time_resolver (hour minute jitter : Nat) (offMin nowUtc : Int)
    (hh : hour ≤ 23) (hm : minute ≤ 59) (hj : jitter ≤ 30) :
    nowUtc < setupNextFireUtc hour minute jitter offMin nowUtc ∧
    0 ≤ setupNextFireUtc hour minute jitter offMin nowUtc % 60 ∧
    setupNextFireUtc hour minute jitter offMin nowUtc % 60 ≤ 30 ∧
    localDayIndex (setupNextFireUtc hour minute jitter offMin nowUtc
        + offMin * 60)
      = (if candidateLocal hour minute jitter offMin nowUtc
            ≤ nowUtc + offMin * 60
         then localDayIndex (nowUtc + offMin * 60) + 1
         else localDayIndex (nowUtc + offMin * 60)) ∧
    setupNextFireUtc hour minute jitter offMin nowUtc
      = rescheduleNextFireUtc hour minute jitter offMin nowUtc := by
  unfold setupNextFireUtc rescheduleNextFireUtc candidateLocal localDayIndex
  refine ⟨?_, ?_, ?_, ?_, rfl⟩ <;> split <;> push_cast <;> omega

/-- Claim C4 witness: 15:00 with jitter second 5 in a zone 360 minutes
behind UTC, at an instant for which the candidate is still ahead. -/
theorem C4_time_resolver_witness :
    (15 ≤ 23 ∧ 0 ≤ 59 ∧ 5 ≤ 30) ∧
    54000 < setupNextFireUtc 15 0 5 (-360) 54000 :=
  ⟨⟨by decide, by decide, by decide⟩,
   (C4_time_resolver 15 0 5 (-360) 54000 (by decide) (by decide)
      (by decide)).1⟩

/-- Claim C1 counterexample: concrete firing of user 7, whose current
settings say 12:00 America/Chicago while the registered job repeats at
15:00 UTC. After the firing the job's next fire instant is the cached
repeat time one day later (140400), which differs from the instant the
TimeResolver would compute from the current settings for every jitter
second the scheduler can draw, and the cached repeat rule is left
unchanged: the firing recomputes nothing from Settings and re-registers
nothing. -/
theorem C1_counterexample :
    ((List.range 31).all (fun s =>
        decide ((((fireStep c1db c1env [c1job] c1job).2.head?).map
            (fun j => j.nextRunUtc)) ≠
          some (rescheduleNextFireUtc 12 0 s (-360) c1env.nowUtc))) = true) ∧
    (fireStep c1db c1env [c1job] c1job).2 =
      [{ name := "grade_check_user_7", repeatUtcSecOfDay := 54000,
         nextRunUtc := 140400, dataUserId := 7 }] := by
  decide

/-- Claim C1 amended: jobs are fixed daily repeaters. The queue left
behind by a firing does not depend on the store or on the firing context
(hence not on current Settings), and it keeps every job's name and its
cached UTC repeat rule unchanged: the dispatcher re-reads credentials
and settings only for message content, and a settings change takes
effect on the fire time only through an explicit reschedule call or a
restart. -/
theorem C1_fixed_daily_repeat (db1 db2 : Database) (env1 env2 : FiringEnv)
    (q : List Job) (j : Job) :
    (fireStep db1 env1 q j).2 = (fireStep db2 env2 q j).2 ∧
    ((fireStep db1 env1 q j).2).map (fun j0 => (j0.name, j0.repeatUtcSecOfDay))
      = q.map (fun j0 => (j0.name, j0.repeatUtcSecOfDay)) := by
  constructor
  · rfl
  · unfold fireStep jobQueueAfterFiring
    rw [List.map_map]
    refine List.map_congr_left ?_
    intro a _
    cases hn : a.name == j.name <;> simp [Function.comp, hn]

/-- Claim C3 counterexample: a firing at Monday 09:00 UTC with a UTC
process clock, for user 8 whose settings timezone is Pacific/Honolulu,
where the local weekday is still Sunday. The weekday in the user's
Settings timezone is Sunday, yet the dispatcher sends messages: the
weekend check does not use the user's timezone. -/
theorem C3_counterexample :
    userSettingsWeekday c3db c3env 8 = 6 ∧
    fetch_and_notify_user c3db c3env c3job ≠ [] := by
  decide

/-- Claim C3 amended: the weekend skip is decided by the process-local
clock, not the user's Settings timezone: whenever the process-local
weekday is Saturday or Sunday the dispatcher sends zero messages, while
the job queue keeps a registration under every previously registered
name, the daily repeat being unaffected. -/
theorem C3_weekend_skip_server_clock (db : Database) (env : FiringEnv)
    (j : Job) (q : List Job)
    (h : 5 ≤ weekdayOf (env.nowUtc + env.serverOffsetMin * 60)) :
    fetch_and_notify_user db env j = [] ∧
    (jobQueueAfterFiring q j.name).map (fun j0 => j0.name)
      = q.map (fun j0 => j0.name) := by
  constructor
  · unfold fetch_and_notify_user
    cases get_user db j.dataUserId with
    | none => rfl
    | some fresh => simp [h]
  · unfold jobQueueAfterFiring
    rw [List.map_map]
    refine List.map_congr_left ?_
    intro a _
    cases hn : a.name == j.name <;> simp [Function.comp, hn]

/-- Claim C3 witness: a firing whose process clock reads Saturday sends
nothing and leaves the queue names unchanged. -/
theorem C3_weekend_skip_server_clock_witness :
    5 ≤ weekdayOf (c3wenv.nowUtc + c3wenv.serverOffsetMin * 60) ∧
    fetch_and_notify_user c3wdb c3wenv c3wjob = [] :=
  ⟨by decide,
   (C3_weekend_skip_server_clock c3wdb c3wenv c3wjob [] (by decide)).1⟩

/-- Claim C9: the dispatcher aborts only on an absent (or undecryptable)
account row; the active flag is not consulted at execution time. For any
weekday firing of a user whose stored row decrypts to a deactivated
view, every fetched grade message is still sent, while any store in
which the row is absent yields no message at all. -/
theorem C9_deactivated_not_filtered (db : Database) (env : FiringEnv)
    (j : Job) (v : UserView)
    (h1 : get_user db j.dataUserId = some v)
    (h2 : v.isActive = false)
    (h3 : weekdayOf (env.nowUtc + env.serverOffsetMin * 60) < 5) :
    (∀ t ∈ env.gradeSource v.aspenUsername v.aspenPassword,
        SentMessage.gradeMsg j.dataUserId t ∈ fetch_and_notify_user db env j) ∧
    (∀ db2 : Database, get_user db2 j.dataUserId = none →
        fetch_and_notify_user db2 env j = []) := by
  constructor
  · intro t ht
    have hw : ¬ (5 ≤ weekdayOf (env.nowUtc + env.serverOffsetMin * 60)) := by
      omega
    simp only [fetch_and_notify_user, h1, if_neg hw]
    refine List.mem_append_left _ ?_
    exact List.mem_map_of_mem _ ht
  · intro db2 h
    unfold fetch_and_notify_user
    rw [h]

/-- Claim C9 witness: a deactivated account on a Monday firing still has
its fetched message sent. -/
theorem C9_deactivated_not_filtered_witness :
    get_user c9db 7 = some c9view ∧ c9view.isActive = false ∧
    SentMessage.gradeMsg 7 ("g") ∈ fetch_and_notify_user c9db c9env c9job :=
  ⟨by decide, by decide,
   (C9_deactivated_not_filtered c9db c9env c9job c9view (by decide) (by decide)
      (by decide)).1 ("g") (by decide)⟩

theorem digit_ne_colon {c : Char} (h1 : 48 ≤ c.toNat) (h2 : c.toNat ≤ 57) :
    (c == ':') = false := by
  cases hb : c == ':' with
  | false => rfl
  | true =>
      have hc : c = ':' := beq_iff_eq.mp hb
      subst hc
      exact absurd h2 (by decide)

theorem splitAllColon_hhmm (a b d e : Char)
    (k1 : (a == ':') = false) (k2 : (b == ':') = false)
    (k4 : (d == ':') = false) (k5 : (e == ':') = false) :
    splitAllColon [a, b, ':', d, e] = [[a, b], [d, e]] := by
  simp [splitAllColon, k1, k2, k4, k5]

theorem specChars_implies_regex (l : List Char)
    (h : specHHMMChars l = true) : timeRegexChars l = true := by
  rcases l with _ | ⟨c1, _ | ⟨c2, _ | ⟨c3, _ | ⟨c4, _ | ⟨c5, _ | ⟨c6, r⟩⟩⟩⟩⟩⟩
  · exact absurd h Bool.false_ne_true
  · exact absurd h Bool.false_ne_true
  · exact absurd h Bool.false_ne_true
  · exact absurd h Bool.false_ne_true
  · exact absurd h Bool.false_ne_true
  · simp only [specHHMMChars, Bool.and_eq_true, beq_iff_eq,
               decide_eq_true_eq, isDigitCh, digitVal] at h
    obtain ⟨⟨⟨⟨⟨⟨hc, hd1⟩, hd2⟩, hd4⟩, hd5⟩, hb1⟩, hb2⟩ := h
    subst hc
    have k1 := digit_ne_colon hd1.1 hd1.2
    have k2 := digit_ne_colon hd2.1 hd2.2
    have k4 := digit_ne_colon hd4.1 hd4.2
    have k5 := digit_ne_colon hd5.1 hd5.2
    unfold timeRegexChars
    rw [splitAllColon_hhmm _ _ _ _ k1 k2 k4 k5]
    simp only [hourPartOK, minutePartOK, Bool.and_eq_true, Bool.or_eq_true,
               decide_eq_true_eq, isDigitCh]
    omega
  · exact absurd h Bool.false_ne_true

theorem regexChars_parse_isSome (l : List Char)
    (h : timeRegexChars l = true) : (codeParseChars l).isSome = true := by
  unfold timeRegexChars at h
  unfold codeParseChars
  rcases hsp : splitAllColon l with _ | ⟨hp, _ | ⟨mp, _ | ⟨z, rest⟩⟩⟩
  · rw [hsp] at h
    exact absurd h Bool.false_ne_true
  · rw [hsp] at h
    exact absurd h Bool.false_ne_true
  · rw [hsp] at h
    have h2 : (hourPartOK hp && minutePartOK mp) = true := h
    rw [Bool.and_eq_true] at h2
    obtain ⟨hH, hM⟩ := h2
    rcases mp with _ | ⟨m1, _ | ⟨m2, _ | ⟨m3, mr⟩⟩⟩
    · exact absurd hM Bool.false_ne_true
    · exact absurd hM Bool.false_ne_true
    · simp only [minutePartOK, Bool.and_eq_true, decide_eq_true_eq,
                 isDigitCh] at hM
      obtain ⟨⟨hm1a, hm1b⟩, hm2a, hm2b⟩ := hM
      have him1 : isDigitCh m1 = true := by
        simp only [isDigitCh, Bool.and_eq_true, decide_eq_true_eq]
        omega
      have him2 : isDigitCh m2 = true := by
        simp only [isDigitCh, Bool.and_eq_true, decide_eq_true_eq]
        omega
      rcases hp with _ | ⟨a, _ | ⟨b, _ | ⟨cc, hr⟩⟩⟩
      · exact absurd hH Bool.false_ne_true
      · have hia : isDigitCh a = true := hH
        have hia2 : (48 ≤ a.toNat ∧ a.toNat ≤ 57) := by
          simpa only [isDigitCh, Bool.and_eq_true, decide_eq_true_eq]
            using hia
        simp only [digitsToNat, digitsToNatAux, hia, him1, him2, if_true,
                   digitVal]
        rw [if_pos ?_]
        · rfl
        · constructor <;> omega
      · simp only [hourPartOK, Bool.and_eq_true, Bool.or_eq_true,
                   decide_eq_true_eq, isDigitCh] at hH
        have hia : isDigitCh a = true := by
          simp only [isDigitCh, Bool.and_eq_true, decide_eq_true_eq]
          omega
        have hib : isDigitCh b = true := by
          simp only [isDigitCh, Bool.and_eq_true, decide_eq_true_eq]
          omega
        simp only [digitsToNat, digitsToNatAux, hia, hib, him1, him2,
                   if_true, digitVal]
        rw [if_pos ?_]
        · rfl
        · constructor <;> omega
      · exact absurd hH Bool.false_ne_true
    · exact absurd hM Bool.false_ne_true
  · rw [hsp] at h
    exact absurd h Bool.false_ne_true

/-- Claim C7 counterexample: the input 9:30 is not of the strict
two-digit HH:MM form the spec describes, yet the handler accepts it and
persists it (the stripped input matches the source regex, whose hour
alternative also admits a single digit). -/
theorem C7_counterexample :
    specHHMM (pyStrip ("9:30")) = false ∧
    (set_notification_time c7db [] 7 ("9:30") 0 0).2.2 = true ∧
    (set_notification_time c7db [] 7 ("9:30") 0 0).1 ≠ c7db := by
  decide

/-- Claim C7 amended: a user-supplied time string is accepted exactly
when its stripped form matches the source regex, whose hour may be
written with one or two digits (0 to 23, single-digit hours such as 9:30
included) and whose minute is exactly two digits 00 to 59 - a strict
superset of the spec's two-digit HH:MM form; every accepted string
parses to an hour at most 23 and a minute at most 59 before any
timezone math runs, and a rejected string causes no persistence and no
scheduling. -/
theorem C7_time_validation (db : Database) (q : List Job) (uid : Int)
    (text : String) (jitter : Nat) (nowUtc : Int) :
    ((set_notification_time db q uid text jitter nowUtc).2.2
        = matchesTimeRegex (pyStrip text)) ∧
    (specHHMM (pyStrip text) = true →
        matchesTimeRegex (pyStrip text) = true) ∧
    (matchesTimeRegex (pyStrip text) = true →
        (codeParseTime (pyStrip text)).isSome = true) ∧
    (matchesTimeRegex (pyStrip text) = false →
      (set_notification_time db q uid text jitter nowUtc).1 = db ∧
      (set_notification_time db q uid text jitter nowUtc).2.1 = q) := by
  refine ⟨?_, ?_, ?_, ?_⟩
  · unfold set_notification_time
    cases hR : matchesTimeRegex (pyStrip text) with
    | true => rw [if_pos rfl]
    | false => rw [if_neg (by simp)]
  · exact fun hs => specChars_implies_regex (pyStrip text).data hs
  · exact fun hr => regexChars_parse_isSome (pyStrip text).data hr
  · intro hR
    unfold set_notification_time
    rw [if_neg (by simp [hR])]
    exact ⟨rfl, rfl⟩

/-- Claim C7 witness: the well-formed input 07:45 is accepted and parses
within bounds. -/
theorem C7_time_validation_witness :
    (set_notification_time c7db [] 7 ("07:45") 0 0).2.2
        = matchesTimeRegex (pyStrip ("07:45")) ∧
    (codeParseTime (pyStrip ("07:45"))).isSome = true :=
  ⟨(C7_time_validation c7db [] 7 ("07:45") 0 0).1,
   (C7_time_validation c7db [] 7 ("07:45") 0 0).2.2.1 (by decide)⟩
